import Mathlib

/-!
Verification development for the memory manager of a symbolic virtual
machine (`lib/Core/MemoryManager.cpp`).

The manager hands out memory-region records (`MemoryObject`) from either a
deterministic bump-allocated arena or the host allocator, keeps a registry
(`objects`) of live records, and assigns each record a fresh, monotonically
increasing segment identity.

The embedding below translates the source functions into pure Lean
functions.  Host-allocator behaviour (`malloc` / `mmap` / `posix_memalign`)
is abstracted by an oracle; the diagnostics emitted through
`klee_warning` / `klee_warning_once` and the (ghost) issuance of identities
are recorded in an event log carried in the manager state, and the fatal
`klee_error` path of `allocateFixed` is a distinct result constructor.
-/

namespace KleeMemory

/-- Size descriptor of a memory object: the `ref<Expr> size` of the source is
either a `ConstantExpr` (concrete byte count, as returned by
`getZExtValue()`) or a still-symbolic expression.  `dyn_cast<ConstantExpr>`
succeeds exactly on the concrete form. -/
inductive SizeExpr where
  | concrete (n : Nat)
  | symbolic (id : Nat)
deriving DecidableEq, Repr

/-- `dyn_cast<ConstantExpr>(size)` followed by `getZExtValue()`:
`some n` when the size is the concrete value `n`, `none` when symbolic. -/
def SizeExpr.asConstant : SizeExpr → Option Nat
  | SizeExpr.concrete n => some n
  | SizeExpr.symbolic _ => none

/-- The fields of `MemoryObject` that `MemoryManager` reads and writes,
in the order of the constructor call
`MemoryObject(segment, address, size, isLocal, isGlobal, isFixed, allocSite, parent)`.
The parent back-pointer is ownership bookkeeping only and the allocation
site is an opaque `llvm::Value *`, modelled as an opaque number. -/
structure MemoryObject where
  segment : Nat
  address : Nat
  size : SizeExpr
  isLocal : Bool
  isGlobal : Bool
  isFixed : Bool
  allocSite : Nat
deriving DecidableEq, Repr

/-- Observable events of one manager run.  The `warn…` constructors stand for
the advisory messages emitted through `klee_warning` / `klee_warning_once`
(never fatal); `hostRequest` / `hostRequestAligned` record the byte count
handed to `allocate_memory` resp. `posix_memalign`; `released` records a
`free_address` call (its arguments: address, the byte count used for
`munmap`, and whether the low-address path was taken); `created` is a ghost
event recording that `++lastSegment` issued a fresh identity to a record
inserted into the registry. -/
inductive Event where
  | warnLargeAlloc
  | warnAlignOnlyPow2
  | warnNotEnoughSpace
  | warnAllocFailed
  | warnAlignedAllocFailed
  | hostRequest (size : Nat) (lowAddress : Bool)
  | hostRequestAligned (alignment : Nat) (size : Nat)
  | released (address : Nat) (size : Nat) (lowAddress : Bool)
  | created (segment : Nat)
deriving DecidableEq, Repr

/-- The `cl::opt` globals read by the manager's operations:
`DeterministicAllocation`, `NullOnZeroMalloc`, `RedZoneSpace`.
(`DeterministicAllocationSize` and `DeterministicStartAddress` only feed
construction and are parameters of `MemoryManager.init`.) -/
structure Config where
  deterministicAllocation : Bool
  nullOnZeroMalloc : Bool
  redZoneSpace : Nat
deriving DecidableEq, Repr

/-- Abstraction of the host allocator.
`mem size lowAddress` is the address returned by
`allocate_memory(size, low_address)` (0 on failure, lines 113-125).
`memalignRes alignment size` is the return code of
`posix_memalign(&address, alignment, size)` and
`memalignAddr alignment size` the value `address` holds after that call
(the stored pointer on success; 0 when the call does not store, since
`address` was initialised to 0). -/
structure HostOracle where
  mem : Nat → Bool → Nat
  memalignRes : Nat → Nat → Int
  memalignAddr : Nat → Nat → Nat

/-- Mutable state of `MemoryManager`: the members `deterministicSpace`,
`nextFreeSlot`, `spaceSize`, `pointerBitWidth`, `lastSegment` and the
registry `objects` (a `std::set<MemoryObject *>`, modelled as a list whose
membership is what matters), plus the ghost event log. -/
structure MemoryManager where
  deterministicSpace : Nat
  nextFreeSlot : Nat
  spaceSize : Nat
  pointerBitWidth : Nat
  lastSegment : Nat
  objects : List MemoryObject
  log : List Event
deriving DecidableEq, Repr

/-- Append one event to the ghost log. -/
def MemoryManager.emit (m : MemoryManager) (e : Event) : MemoryManager :=
  { m with log := m.log ++ [e] }

/-- The constructor (lines 57-87): `deterministicSpace` and `nextFreeSlot`
start at 0 and, when deterministic allocation is on, are both set to the
address returned by `mmap` (`mappedSpace`; the fatal paths for `MAP_FAILED`
or an origin mismatch abort before a manager exists, so `init` models a
successful construction). -/
def MemoryManager.init (cfg : Config) (spaceSize pointerBitWidth mappedSpace : Nat) :
    MemoryManager :=
  if cfg.deterministicAllocation then
    { deterministicSpace := mappedSpace, nextFreeSlot := mappedSpace,
      spaceSize := spaceSize, pointerBitWidth := pointerBitWidth,
      lastSegment := 0, objects := [], log := [] }
  else
    { deterministicSpace := 0, nextFreeSlot := 0,
      spaceSize := spaceSize, pointerBitWidth := pointerBitWidth,
      lastSegment := 0, objects := [], log := [] }

/-- `llvm::isPowerOf2_64(Value)`: `Value && !(Value & (Value - 1))`. -/
def isPowerOf2_64 (v : Nat) : Bool :=
  v != 0 && (v &&& (v - 1)) == 0

/-- `llvm::alignTo(value, align)`: round `value` up to the next multiple of
`align`, i.e. `(value + align - 1) / align * align`.  The source computes
this in `uint64_t`; the manager only ever feeds it arena cursors plus an
alignment, which stay far below `2^64`, so exact naturals are faithful. -/
def alignTo (value align : Nat) : Nat :=
  (value + align - 1) / align * align

/-- Common tail of `MemoryManager::allocate` (lines 200-207): if the
obtained address is null, fail; otherwise assign the next identity
(`++lastSegment`), construct the record (`isFixed = false`) and insert it
into the registry. -/
def MemoryManager.finishAllocate (m : MemoryManager) (address : Nat) (size : SizeExpr)
    (isLocal isGlobal : Bool) (allocSite : Nat) : Option MemoryObject × MemoryManager :=
  if address = 0 then
    (none, m)
  else
    let mo : MemoryObject :=
      { segment := m.lastSegment + 1, address := address, size := size,
        isLocal := isLocal, isGlobal := isGlobal, isFixed := false,
        allocSite := allocSite }
    (some mo,
      { m with lastSegment := m.lastSegment + 1,
               objects := mo :: m.objects,
               log := m.log ++ [Event.created (m.lastSegment + 1)] })

/-- `MemoryManager::allocate(ref<Expr> size, …)` (lines 135-208).
Order of checks as in the source: large-allocation advisory (line 146),
zero-size policy (line 152), power-of-two alignment (line 155), then the
deterministic carve (lines 161-179) or the native path (lines 180-198),
and finally the common tail `finishAllocate`. -/
def MemoryManager.allocate (cfg : Config) (host : HostOracle) (m : MemoryManager)
    (size : SizeExpr) (isLocal isGlobal : Bool) (allocSite : Nat) (alignment : Nat) :
    Option MemoryObject × MemoryManager :=
  let concreteSize := (size.asConstant).getD 0
  let hasConcreteSize := (size.asConstant).isSome
  let m1 := if 10 * 1024 * 1024 < concreteSize then m.emit Event.warnLargeAlloc else m
  if cfg.nullOnZeroMalloc && hasConcreteSize && (concreteSize == 0) then
    (none, m1)
  else if ¬ isPowerOf2_64 alignment then
    (none, m1.emit Event.warnAlignOnlyPow2)
  else if cfg.deterministicAllocation then
    let address := alignTo (m1.nextFreeSlot + alignment - 1) alignment
    let allocSize := max concreteSize 1
    if address + allocSize < m1.deterministicSpace + m1.spaceSize then
      let m2 := { m1 with nextFreeSlot := address + allocSize + cfg.redZoneSpace }
      m2.finishAllocate address size isLocal isGlobal allocSite
    else
      (m1.emit Event.warnNotEnoughSpace).finishAllocate 0 size isLocal isGlobal allocSite
  else
    let allocSize := if hasConcreteSize then concreteSize else 1
    if alignment ≤ 8 ∨ m1.pointerBitWidth = 32 then
      let low := m1.pointerBitWidth == 32
      let m2 := m1.emit (Event.hostRequest allocSize low)
      let address := host.mem allocSize low
      if address = 0 ∧ concreteSize ≠ 0 then
        (none, m2.emit Event.warnAllocFailed)
      else
        m2.finishAllocate address size isLocal isGlobal allocSite
    else
      let m2 := m1.emit (Event.hostRequestAligned alignment allocSize)
      if host.memalignRes alignment allocSize < 0 then
        (m2.emit Event.warnAlignedAllocFailed).finishAllocate 0 size isLocal isGlobal allocSite
      else
        m2.finishAllocate (host.memalignAddr alignment allocSize) size isLocal isGlobal allocSite

/-- Outcome of `MemoryManager::allocateFixed`: `fatal` is the `klee_error`
call (process termination), `ok` carries the new record and state. -/
inductive FixedResult where
  | fatal
  | ok (mo : MemoryObject) (m : MemoryManager)
deriving DecidableEq, Repr

/-- Whether the `allocateFixed` call died with `klee_error`. -/
def FixedResult.isFatal : FixedResult → Bool
  | FixedResult.fatal => true
  | FixedResult.ok _ _ => false

/-- The overlap scan of `MemoryManager::allocateFixed` (lines 213-222),
exactly as written: records whose size is symbolic are skipped; for a
concrete-size record the source declares `unsigned moSize = CE->getZExtValue()`
(truncation to 32 bits) and tests
`address + moSize > mo->address && address < mo->address + moSize`
— note that both sides of the test use the existing record's `moSize`;
the requested `size` parameter does not occur in it.  The additions are
`uint64_t` arithmetic, hence the reductions modulo `2 ^ 64`. -/
def overlapScanHit (objects : List MemoryObject) (address : Nat) : Bool :=
  objects.any fun mo =>
    match mo.size.asConstant with
    | some n =>
        let moSize := n % 2 ^ 32
        decide (mo.address < (address + moSize) % 2 ^ 64 ∧
                address < (mo.address + moSize) % 2 ^ 64)
    | none => false

/-- `MemoryManager::allocateFixed(address, size, allocSite)` (lines 210-231):
scan for an overlap (fatal on hit, debug builds), then assign the next
identity and insert a record with `isLocal = false`, `isGlobal = true`,
`isFixed = true` whose size is `ConstantExpr::alloc(size, pointerWidth)`
(truncation of `size` to the pointer width). -/
def MemoryManager.allocateFixed (m : MemoryManager) (address size : Nat)
    (allocSite : Nat) : FixedResult :=
  if overlapScanHit m.objects address then
    FixedResult.fatal
  else
    let mo : MemoryObject :=
      { segment := m.lastSegment + 1, address := address,
        size := SizeExpr.concrete (size % 2 ^ m.pointerBitWidth),
        isLocal := false, isGlobal := true, isFixed := true,
        allocSite := allocSite }
    FixedResult.ok mo
      { m with lastSegment := m.lastSegment + 1,
               objects := mo :: m.objects,
               log := m.log ++ [Event.created (m.lastSegment + 1)] }

/-- `free_address(mo, low_address)` (lines 89-98) as an event: it releases
`mo->address`, using for `munmap` the concrete size when available and 1
otherwise. -/
def freeAddressEvent (mo : MemoryObject) (lowAddress : Bool) : Event :=
  Event.released mo.address ((mo.size.asConstant).getD 1) lowAddress

/-- `MemoryManager::markFreed(mo)` (lines 235-242): if the record is
tracked, release its backing storage (unless fixed or in deterministic
mode) and erase it from the registry; otherwise do nothing. -/
def MemoryManager.markFreed (cfg : Config) (m : MemoryManager) (mo : MemoryObject) :
    MemoryManager :=
  if mo ∈ m.objects then
    let m1 :=
      if !mo.isFixed && !cfg.deterministicAllocation then
        m.emit (freeAddressEvent mo (m.pointerBitWidth == 32))
      else m
    { m1 with objects := m1.objects.erase mo }
  else m

/-- One external request to the manager. -/
inductive Op where
  | alloc (size : SizeExpr) (isLocal isGlobal : Bool) (allocSite : Nat) (alignment : Nat)
  | allocFixed (address : Nat) (size : Nat) (allocSite : Nat)
  | free (mo : MemoryObject)
deriving DecidableEq, Repr

/-- State transition for one request.  A fatal `allocateFixed` terminates
the process, so no further state exists; keeping the prior state makes
every invariant hold vacuously from that point on. -/
def step (cfg : Config) (host : HostOracle) (m : MemoryManager) : Op → MemoryManager
  | Op.alloc size isLocal isGlobal allocSite alignment =>
      (m.allocate cfg host size isLocal isGlobal allocSite alignment).2
  | Op.allocFixed address size allocSite =>
      match m.allocateFixed address size allocSite with
      | FixedResult.fatal => m
      | FixedResult.ok _ m1 => m1
  | Op.free mo => m.markFreed cfg mo

/-- Run a sequence of requests. -/
def run (cfg : Config) (host : HostOracle) (m : MemoryManager) (ops : List Op) :
    MemoryManager :=
  ops.foldl (step cfg host) m

/-- The identities issued so far, in issuance order (projection of the ghost
`created` events). -/
def createdSegs (log : List Event) : List Nat :=
  log.filterMap fun e =>
    match e with
    | Event.created s => some s
    | _ => none

/-- Whether an operation, when it is a fixed allocation, supplies a non-zero
address. -/
def fixedAddrNonzero : Op → Bool
  | Op.allocFixed address _ _ => address != 0
  | _ => true

/-- Modelled from the spec: the half-open ranges `[a, a + s)` and
`[b, b + t)` intersect — the spec's overlap notion for the
fixed-allocation check ("any existing record whose concrete size range
intersects `[address, address + size)`"). -/
def specRangesIntersect (a s b t : Nat) : Bool :=
  decide (b < a + s ∧ a < b + t)

/-- Modelled from the spec: the smallest address at or above `c` that is a
multiple of `a` — the spec's description of the deterministic carve
("the next address at or above the cursor satisfying alignment"). -/
def specSmallestAlignedGE (c a : Nat) : Nat :=
  (c + a - 1) / a * a

/-- Deterministic-mode configuration with the default 10-byte red zone. -/
def cfgDet : Config :=
  { deterministicAllocation := true, nullOnZeroMalloc := false, redZoneSpace := 10 }

/-- Deterministic-mode configuration with a 16-byte red zone (the spec's
red-zone scenario). -/
def cfgDet16 : Config :=
  { deterministicAllocation := true, nullOnZeroMalloc := false, redZoneSpace := 16 }

/-- Native-mode configuration, zero-size requests allowed. -/
def cfgNative : Config :=
  { deterministicAllocation := false, nullOnZeroMalloc := false, redZoneSpace := 10 }

/-- Native-mode configuration with `return-null-on-zero-malloc` enabled. -/
def cfgNativeZeroFail : Config :=
  { deterministicAllocation := false, nullOnZeroMalloc := true, redZoneSpace := 10 }

/-- A concrete host-allocator behaviour used to instantiate theorems:
`malloc`-like calls fail exactly on zero-byte requests, aligned requests
succeed at a fixed address. -/
def host0 : HostOracle :=
  { mem := fun s _ => if s = 0 then 0 else 40960 + s,
    memalignRes := fun _ _ => 0,
    memalignAddr := fun _ _ => 8192 }

/-- A record that is never inserted into any registry below; used to
exercise `markFreed` on an untracked record. -/
def moOutside : MemoryObject :=
  { segment := 7, address := 123, size := SizeExpr.concrete 8,
    isLocal := false, isGlobal := false, isFixed := false, allocSite := 0 }

/-- Registry holding one fixed record spanning `[1000, 1010)` (concrete
size 10), obtained by `allocateFixed(1000, 10)` on a fresh manager. -/
def c1m1 : MemoryManager :=
  match (MemoryManager.init cfgNative 1000 64 0).allocateFixed 1000 10 0 with
  | FixedResult.ok _ m => m
  | FixedResult.fatal => MemoryManager.init cfgNative 1000 64 0

/-- Registry holding one fixed record spanning `[1000, 1100)` (concrete
size 100), obtained by `allocateFixed(1000, 100)` on a fresh manager. -/
def c1m1b : MemoryManager :=
  match (MemoryManager.init cfgNative 1000 64 0).allocateFixed 1000 100 0 with
  | FixedResult.ok _ m => m
  | FixedResult.fatal => MemoryManager.init cfgNative 1000 64 0

/-- Deterministic manager over a 1000-byte arena mapped at 4096, after one
999-byte allocation (which fits: its end is 5095 < 5096). -/
def c2m1 : MemoryManager :=
  run cfgDet host0 (MemoryManager.init cfgDet 1000 64 4096)
    [Op.alloc (SizeExpr.concrete 999) false false 0 1]

/-- Manager after `allocateFixed(0, 16)` on a fresh native-mode manager. -/
def c3m1 : MemoryManager :=
  run cfgNative host0 (MemoryManager.init cfgNative 1000 64 0) [Op.allocFixed 0 16 0]

/-- Fresh deterministic manager over a 1 MiB arena mapped at 4096, 16-byte
red zone. -/
def c6m0 : MemoryManager := MemoryManager.init cfgDet16 1048576 64 4096

/-- Result of allocating 100 bytes (alignment 8) on `c6m0`. -/
def c6r1 : Option MemoryObject × MemoryManager :=
  c6m0.allocate cfgDet16 host0 (SizeExpr.concrete 100) false false 0 8

/-- The record produced by the first allocation on `c6m0`. -/
def c6mo1 : MemoryObject := (c6r1.1).getD moOutside

/-- Result of then allocating 50 bytes (alignment 8). -/
def c6r2 : Option MemoryObject × MemoryManager :=
  (c6r1.2).allocate cfgDet16 host0 (SizeExpr.concrete 50) false false 0 8

/-- The record produced by the second allocation. -/
def c6mo2 : MemoryObject := (c6r2.1).getD moOutside

/-- The first record of the registry reached by a fixed allocation at 4096,
a 10-byte allocation and a free of an untracked record. -/
def c3w : MemoryObject :=
  ((run cfgNative host0 (MemoryManager.init cfgNative 1000 64 0)
    [Op.allocFixed 4096 16 0,
     Op.alloc (SizeExpr.concrete 10) false false 0 8,
     Op.free moOutside]).objects).headD moOutside

/-- Fresh deterministic manager over a 100000-byte arena mapped at 4096:
its cursor, 4096, is already a multiple of 8. -/
def c7m0 : MemoryManager := MemoryManager.init cfgDet 100000 64 4096

/-- Result of allocating 50 bytes with alignment 8 on `c7m0`. -/
def c7r : Option MemoryObject × MemoryManager :=
  c7m0.allocate cfgDet host0 (SizeExpr.concrete 50) false false 0 8

/-- The record produced by that allocation. -/
def c7mo : MemoryObject := (c7r.1).getD moOutside

/-! ### Basic lemmas about the embedding -/

theorem alignTo_ge (x a : Nat) (ha : 0 < a) : x ≤ alignTo x a := by
  unfold alignTo
  rw [Nat.mul_comm]
  have h := Nat.div_add_mod (x + a - 1) a
  have h2 : (x + a - 1) % a < a := Nat.mod_lt _ ha
  omega

theorem alignTo_dvd (x a : Nat) : a ∣ alignTo x a := by
  unfold alignTo
  exact dvd_mul_left a _

theorem isPowerOf2_64_pos {a : Nat} (h : isPowerOf2_64 a = true) : 0 < a := by
  unfold isPowerOf2_64 at h
  simp only [Bool.and_eq_true, bne_iff_ne, ne_eq] at h
  omega

@[simp] theorem emit_deterministicSpace (m : MemoryManager) (e : Event) :
    (m.emit e).deterministicSpace = m.deterministicSpace := rfl

@[simp] theorem emit_nextFreeSlot (m : MemoryManager) (e : Event) :
    (m.emit e).nextFreeSlot = m.nextFreeSlot := rfl

@[simp] theorem emit_spaceSize (m : MemoryManager) (e : Event) :
    (m.emit e).spaceSize = m.spaceSize := rfl

@[simp] theorem emit_pointerBitWidth (m : MemoryManager) (e : Event) :
    (m.emit e).pointerBitWidth = m.pointerBitWidth := rfl

@[simp] theorem emit_lastSegment (m : MemoryManager) (e : Event) :
    (m.emit e).lastSegment = m.lastSegment := rfl

@[simp] theorem emit_objects (m : MemoryManager) (e : Event) :
    (m.emit e).objects = m.objects := rfl

@[simp] theorem emit_log (m : MemoryManager) (e : Event) :
    (m.emit e).log = m.log ++ [e] := rfl

theorem createdSegs_append (l l' : List Event) :
    createdSegs (l ++ l') = createdSegs l ++ createdSegs l' := by
  unfold createdSegs
  exact List.filterMap_append l l' _

@[simp] theorem createdSegs_nil : createdSegs [] = [] := rfl

@[simp] theorem createdSegs_created (s : Nat) (l : List Event) :
    createdSegs (Event.created s :: l) = s :: createdSegs l := rfl

@[simp] theorem createdSegs_warnLargeAlloc (l : List Event) :
    createdSegs (Event.warnLargeAlloc :: l) = createdSegs l := rfl

@[simp] theorem createdSegs_warnAlignOnlyPow2 (l : List Event) :
    createdSegs (Event.warnAlignOnlyPow2 :: l) = createdSegs l := rfl

@[simp] theorem createdSegs_warnNotEnoughSpace (l : List Event) :
    createdSegs (Event.warnNotEnoughSpace :: l) = createdSegs l := rfl

@[simp] theorem createdSegs_warnAllocFailed (l : List Event) :
    createdSegs (Event.warnAllocFailed :: l) = createdSegs l := rfl

@[simp] theorem createdSegs_warnAlignedAllocFailed (l : List Event) :
    createdSegs (Event.warnAlignedAllocFailed :: l) = createdSegs l := rfl

@[simp] theorem createdSegs_hostRequest (n : Nat) (b : Bool) (l : List Event) :
    createdSegs (Event.hostRequest n b :: l) = createdSegs l := rfl

@[simp] theorem createdSegs_hostRequestAligned (a n : Nat) (l : List Event) :
    createdSegs (Event.hostRequestAligned a n :: l) = createdSegs l := rfl

@[simp] theorem createdSegs_released (x n : Nat) (b : Bool) (l : List Event) :
    createdSegs (Event.released x n b :: l) = createdSegs l := rfl

/-! ### Lemmas about `finishAllocate` -/

theorem finishAllocate_deterministicSpace (m : MemoryManager) (address : Nat)
    (size : SizeExpr) (l g : Bool) (site : Nat) :
    ((m.finishAllocate address size l g site).2).deterministicSpace =
      m.deterministicSpace := by
  unfold MemoryManager.finishAllocate
  split <;> rfl

theorem finishAllocate_nextFreeSlot (m : MemoryManager) (address : Nat)
    (size : SizeExpr) (l g : Bool) (site : Nat) :
    ((m.finishAllocate address size l g site).2).nextFreeSlot = m.nextFreeSlot := by
  unfold MemoryManager.finishAllocate
  split <;> rfl

theorem finishAllocate_spaceSize (m : MemoryManager) (address : Nat)
    (size : SizeExpr) (l g : Bool) (site : Nat) :
    ((m.finishAllocate address size l g site).2).spaceSize = m.spaceSize := by
  unfold MemoryManager.finishAllocate
  split <;> rfl

theorem finishAllocate_pointerBitWidth (m : MemoryManager) (address : Nat)
    (size : SizeExpr) (l g : Bool) (site : Nat) :
    ((m.finishAllocate address size l g site).2).pointerBitWidth =
      m.pointerBitWidth := by
  unfold MemoryManager.finishAllocate
  split <;> rfl

theorem finishAllocate_objects (m : MemoryManager) (address : Nat)
    (size : SizeExpr) (l g : Bool) (site : Nat) :
    ∀ mo ∈ ((m.finishAllocate address size l g site).2).objects,
      mo ∈ m.objects ∨ (mo.address = address ∧ address ≠ 0) := by
  unfold MemoryManager.finishAllocate
  split
  · exact fun mo h => Or.inl h
  · intro mo h
    rcases List.mem_cons.mp h with h1 | h1
    · right
      constructor
      · rw [h1]
      · assumption
    · exact Or.inl h1

theorem finishAllocate_segs (m : MemoryManager) (address : Nat)
    (size : SizeExpr) (l g : Bool) (site : Nat) :
    (((m.finishAllocate address size l g site).2).lastSegment = m.lastSegment ∧
       ((m.finishAllocate address size l g site).2).log = m.log) ∨
    (((m.finishAllocate address size l g site).2).lastSegment = m.lastSegment + 1 ∧
       ((m.finishAllocate address size l g site).2).log =
         m.log ++ [Event.created (m.lastSegment + 1)]) := by
  unfold MemoryManager.finishAllocate
  split
  · exact Or.inl ⟨rfl, rfl⟩
  · exact Or.inr ⟨rfl, rfl⟩

/-! ### Lemmas about `allocate` -/

theorem allocate_deterministicSpace (cfg : Config) (host : HostOracle)
    (m : MemoryManager) (size : SizeExpr) (l g : Bool) (site alignment : Nat) :
    ((m.allocate cfg host size l g site alignment).2).deterministicSpace =
      m.deterministicSpace := by
  simp only [MemoryManager.allocate]
  split_ifs <;> simp [finishAllocate_deterministicSpace]

theorem allocate_spaceSize (cfg : Config) (host : HostOracle)
    (m : MemoryManager) (size : SizeExpr) (l g : Bool) (site alignment : Nat) :
    ((m.allocate cfg host size l g site alignment).2).spaceSize = m.spaceSize := by
  simp only [MemoryManager.allocate]
  split_ifs <;> simp [finishAllocate_spaceSize]

theorem allocate_pointerBitWidth (cfg : Config) (host : HostOracle)
    (m : MemoryManager) (size : SizeExpr) (l g : Bool) (site alignment : Nat) :
    ((m.allocate cfg host size l g site alignment).2).pointerBitWidth =
      m.pointerBitWidth := by
  simp only [MemoryManager.allocate]
  split_ifs <;> simp [finishAllocate_pointerBitWidth]

/-- The cursor after `allocate` is either untouched, or (deterministic carve
that fits) set just past the carved region plus the red zone. -/
theorem allocate_nextFreeSlot_cases (cfg : Config) (host : HostOracle)
    (m : MemoryManager) (size : SizeExpr) (l g : Bool) (site alignment : Nat) :
    ((m.allocate cfg host size l g site alignment).2).nextFreeSlot =
        m.nextFreeSlot ∨
    (isPowerOf2_64 alignment = true ∧
     alignTo (m.nextFreeSlot + alignment - 1) alignment +
         max ((size.asConstant).getD 0) 1 < m.deterministicSpace + m.spaceSize ∧
     ((m.allocate cfg host size l g site alignment).2).nextFreeSlot =
       alignTo (m.nextFreeSlot + alignment - 1) alignment +
         max ((size.asConstant).getD 0) 1 + cfg.redZoneSpace) := by
  simp only [MemoryManager.allocate]
  split_ifs <;>
    first
      | (left; simp [finishAllocate_nextFreeSlot]; done)
      | (right; simp_all [finishAllocate_nextFreeSlot])

theorem allocate_nextFreeSlot_mono (cfg : Config) (host : HostOracle)
    (m : MemoryManager) (size : SizeExpr) (l g : Bool) (site alignment : Nat) :
    m.nextFreeSlot ≤ ((m.allocate cfg host size l g site alignment).2).nextFreeSlot := by
  rcases allocate_nextFreeSlot_cases cfg host m size l g site alignment with h | ⟨hp, _, h⟩
  · omega
  · have ha := isPowerOf2_64_pos hp
    have h2 := alignTo_ge (m.nextFreeSlot + alignment - 1) alignment ha
    omega

theorem allocate_nextFreeSlot_bound (cfg : Config) (host : HostOracle)
    (m : MemoryManager) (size : SizeExpr) (l g : Bool) (site alignment : Nat) :
    ((m.allocate cfg host size l g site alignment).2).nextFreeSlot ≤
      max m.nextFreeSlot
        (m.deterministicSpace + m.spaceSize + cfg.redZoneSpace - 1) := by
  rcases allocate_nextFreeSlot_cases cfg host m size l g site alignment with h | ⟨_, hfit, h⟩
  · omega
  · omega

/-- Every record in the registry after `allocate` was already there or has a
non-zero address (the `if (!address) return 0` guard precedes insertion). -/
theorem allocate_objects (cfg : Config) (host : HostOracle)
    (m : MemoryManager) (size : SizeExpr) (l g : Bool) (site alignment : Nat) :
    ∀ mo ∈ ((m.allocate cfg host size l g site alignment).2).objects,
      mo ∈ m.objects ∨ mo.address ≠ 0 := by
  simp only [MemoryManager.allocate]
  split_ifs <;>
    first
      | (intro mo h; exact Or.inl (by simpa using h))
      | (intro mo h
         rcases finishAllocate_objects _ _ _ _ _ _ mo h with h1 | ⟨h1, h2⟩
         · exact Or.inl (by simpa using h1)
         · exact Or.inr (h1 ▸ h2))

/-- `finishAllocate`, relative to a prior manager state `m` whose identity
data `base` still agrees with: it either issues no identity or exactly
`m.lastSegment + 1`. -/
theorem finishAllocate_segs_rel (m base : MemoryManager) (address : Nat)
    (size : SizeExpr) (l g : Bool) (site : Nat)
    (hl : base.lastSegment = m.lastSegment)
    (hc : createdSegs base.log = createdSegs m.log) :
    (((base.finishAllocate address size l g site).2).lastSegment = m.lastSegment ∧
       createdSegs ((base.finishAllocate address size l g site).2).log =
         createdSegs m.log) ∨
    (((base.finishAllocate address size l g site).2).lastSegment =
         m.lastSegment + 1 ∧
       createdSegs ((base.finishAllocate address size l g site).2).log =
         createdSegs m.log ++ [m.lastSegment + 1]) := by
  unfold MemoryManager.finishAllocate
  split
  · exact Or.inl ⟨hl, hc⟩
  · right
    constructor
    · simp [hl]
    · simp [createdSegs_append, hc, hl]

/-- `allocate` either issues no identity (failure) or issues exactly the
identity `lastSegment + 1`. -/
theorem allocate_segs (cfg : Config) (host : HostOracle)
    (m : MemoryManager) (size : SizeExpr) (l g : Bool) (site alignment : Nat) :
    (((m.allocate cfg host size l g site alignment).2).lastSegment = m.lastSegment ∧
       createdSegs ((m.allocate cfg host size l g site alignment).2).log =
         createdSegs m.log) ∨
    (((m.allocate cfg host size l g site alignment).2).lastSegment =
         m.lastSegment + 1 ∧
       createdSegs ((m.allocate cfg host size l g site alignment).2).log =
         createdSegs m.log ++ [m.lastSegment + 1]) := by
  simp only [MemoryManager.allocate]
  split_ifs <;>
    first
      | (left; refine ⟨?_, ?_⟩ <;> (simp [createdSegs_append]; done))
      | exact finishAllocate_segs_rel _ _ _ _ _ _ _ (by simp)
          (by simp [createdSegs_append])

/-! ### Lemmas about `allocateFixed` and `markFreed` -/

theorem allocateFixed_ok_inv (m : MemoryManager) (address size site : Nat)
    (mo : MemoryObject) (m' : MemoryManager)
    (h : m.allocateFixed address size site = FixedResult.ok mo m') :
    mo.address = address ∧ mo.segment = m.lastSegment + 1 ∧
    m'.deterministicSpace = m.deterministicSpace ∧
    m'.nextFreeSlot = m.nextFreeSlot ∧
    m'.spaceSize = m.spaceSize ∧
    m'.pointerBitWidth = m.pointerBitWidth ∧
    m'.lastSegment = m.lastSegment + 1 ∧
    m'.objects = mo :: m.objects ∧
    createdSegs m'.log = createdSegs m.log ++ [m.lastSegment + 1] := by
  unfold MemoryManager.allocateFixed at h
  split at h
  · exact absurd h (by simp)
  · rw [FixedResult.ok.injEq] at h
    obtain ⟨h1, h2⟩ := h
    subst h1
    subst h2
    refine ⟨rfl, rfl, rfl, rfl, rfl, rfl, rfl, rfl, ?_⟩
    simp [createdSegs_append]

theorem markFreed_fields (cfg : Config) (m : MemoryManager) (mo : MemoryObject) :
    (m.markFreed cfg mo).deterministicSpace = m.deterministicSpace ∧
    (m.markFreed cfg mo).nextFreeSlot = m.nextFreeSlot ∧
    (m.markFreed cfg mo).spaceSize = m.spaceSize ∧
    (m.markFreed cfg mo).pointerBitWidth = m.pointerBitWidth ∧
    (m.markFreed cfg mo).lastSegment = m.lastSegment ∧
    createdSegs (m.markFreed cfg mo).log = createdSegs m.log := by
  unfold MemoryManager.markFreed
  split_ifs <;> refine ⟨rfl, rfl, rfl, rfl, rfl, ?_⟩ <;>
    simp [createdSegs_append, freeAddressEvent]

theorem markFreed_objects_sub (cfg : Config) (m : MemoryManager) (mo : MemoryObject) :
    ∀ x ∈ (m.markFreed cfg mo).objects, x ∈ m.objects := by
  unfold MemoryManager.markFreed
  split_ifs <;> intro x hx
  · exact List.erase_subset _ _ hx
  · exact List.erase_subset _ _ hx
  · exact hx

/-! ### Lemmas about `step` and `run` -/

theorem step_deterministicSpace (cfg : Config) (host : HostOracle)
    (m : MemoryManager) (op : Op) :
    (step cfg host m op).deterministicSpace = m.deterministicSpace := by
  cases op with
  | alloc size l g site alignment => exact allocate_deterministicSpace cfg host m size l g site alignment
  | allocFixed address size site =>
      simp only [step]
      cases h : m.allocateFixed address size site with
      | fatal => rfl
      | ok mo m1 =>
          exact (allocateFixed_ok_inv m address size site mo m1 h).2.2.1
  | free mo => exact (markFreed_fields cfg m mo).1

theorem step_spaceSize (cfg : Config) (host : HostOracle)
    (m : MemoryManager) (op : Op) :
    (step cfg host m op).spaceSize = m.spaceSize := by
  cases op with
  | alloc size l g site alignment => exact allocate_spaceSize cfg host m size l g site alignment
  | allocFixed address size site =>
      simp only [step]
      cases h : m.allocateFixed address size site with
      | fatal => rfl
      | ok mo m1 =>
          exact (allocateFixed_ok_inv m address size site mo m1 h).2.2.2.2.1
  | free mo => exact (markFreed_fields cfg m mo).2.2.1

theorem step_nextFreeSlot_mono (cfg : Config) (host : HostOracle)
    (m : MemoryManager) (op : Op) :
    m.nextFreeSlot ≤ (step cfg host m op).nextFreeSlot := by
  cases op with
  | alloc size l g site alignment => exact allocate_nextFreeSlot_mono cfg host m size l g site alignment
  | allocFixed address size site =>
      simp only [step]
      cases h : m.allocateFixed address size site with
      | fatal => exact Nat.le_refl _
      | ok mo m1 =>
          exact Nat.le_of_eq ((allocateFixed_ok_inv m address size site mo m1 h).2.2.2.1).symm
  | free mo => exact Nat.le_of_eq ((markFreed_fields cfg m mo).2.1).symm

/-- The cursor after one step is either untouched or at most
`deterministicSpace + spaceSize + redZoneSpace - 1`. -/
theorem step_nextFreeSlot_cases (cfg : Config) (host : HostOracle)
    (m : MemoryManager) (op : Op) :
    (step cfg host m op).nextFreeSlot = m.nextFreeSlot ∨
    (step cfg host m op).nextFreeSlot ≤
      m.deterministicSpace + m.spaceSize + cfg.redZoneSpace - 1 := by
  cases op with
  | alloc size l g site alignment =>
      simp only [step]
      rcases allocate_nextFreeSlot_cases cfg host m size l g site alignment with h | ⟨_, hfit, h⟩
      · exact Or.inl h
      · right
        omega
  | allocFixed address size site =>
      simp only [step]
      cases h : m.allocateFixed address size site with
      | fatal => exact Or.inl rfl
      | ok mo m1 =>
          exact Or.inl (allocateFixed_ok_inv m address size site mo m1 h).2.2.2.1
  | free mo => exact Or.inl (markFreed_fields cfg m mo).2.1

theorem step_objects (cfg : Config) (host : HostOracle)
    (m : MemoryManager) (op : Op) (hop : fixedAddrNonzero op = true) :
    ∀ mo ∈ (step cfg host m op).objects, mo ∈ m.objects ∨ mo.address ≠ 0 := by
  cases op with
  | alloc size l g site alignment => exact allocate_objects cfg host m size l g site alignment
  | allocFixed address size site =>
      simp only [step]
      cases h : m.allocateFixed address size site with
      | fatal => exact fun mo hmo => Or.inl hmo
      | ok mo1 m1 =>
          intro x hx
          obtain ⟨haddr, _, _, _, _, _, _, hobj, _⟩ :=
            allocateFixed_ok_inv m address size site mo1 m1 h
          rw [hobj] at hx
          rcases List.mem_cons.mp hx with h1 | h1
          · right
            rw [h1, haddr]
            simpa [fixedAddrNonzero] using hop
          · exact Or.inl h1
  | free mo => exact fun x hx => Or.inl (markFreed_objects_sub cfg m mo x hx)

theorem step_segs (cfg : Config) (host : HostOracle)
    (m : MemoryManager) (op : Op) :
    ((step cfg host m op).lastSegment = m.lastSegment ∧
       createdSegs (step cfg host m op).log = createdSegs m.log) ∨
    ((step cfg host m op).lastSegment = m.lastSegment + 1 ∧
       createdSegs (step cfg host m op).log =
         createdSegs m.log ++ [m.lastSegment + 1]) := by
  cases op with
  | alloc size l g site alignment => exact allocate_segs cfg host m size l g site alignment
  | allocFixed address size site =>
      simp only [step]
      cases h : m.allocateFixed address size site with
      | fatal => exact Or.inl ⟨rfl, rfl⟩
      | ok mo1 m1 =>
          obtain ⟨_, _, _, _, _, _, hls, _, hcs⟩ :=
            allocateFixed_ok_inv m address size site mo1 m1 h
          exact Or.inr ⟨hls, hcs⟩
  | free mo =>
      exact Or.inl ⟨(markFreed_fields cfg m mo).2.2.2.2.1, (markFreed_fields cfg m mo).2.2.2.2.2⟩

@[simp] theorem run_nil (cfg : Config) (host : HostOracle) (m : MemoryManager) :
    run cfg host m [] = m := rfl

theorem run_cons (cfg : Config) (host : HostOracle) (m : MemoryManager)
    (op : Op) (ops : List Op) :
    run cfg host m (op :: ops) = run cfg host (step cfg host m op) ops := rfl

theorem run_append (cfg : Config) (host : HostOracle) (m : MemoryManager)
    (ops ops' : List Op) :
    run cfg host m (ops ++ ops') = run cfg host (run cfg host m ops) ops' := by
  unfold run
  exact List.foldl_append _ _ _ _

theorem run_nextFreeSlot_mono (cfg : Config) (host : HostOracle)
    (ops : List Op) (m : MemoryManager) :
    m.nextFreeSlot ≤ (run cfg host m ops).nextFreeSlot := by
  induction ops generalizing m with
  | nil => simp
  | cons op ops ih =>
      rw [run_cons]
      exact Nat.le_trans (step_nextFreeSlot_mono cfg host m op) (ih (step cfg host m op))

theorem run_nextFreeSlot_bound (cfg : Config) (host : HostOracle)
    (ops : List Op) (m : MemoryManager)
    (h : m.nextFreeSlot ≤ m.deterministicSpace + m.spaceSize + cfg.redZoneSpace - 1) :
    (run cfg host m ops).nextFreeSlot ≤
      m.deterministicSpace + m.spaceSize + cfg.redZoneSpace - 1 := by
  induction ops generalizing m with
  | nil => simpa using h
  | cons op ops ih =>
      rw [run_cons]
      have hD := step_deterministicSpace cfg host m op
      have hS := step_spaceSize cfg host m op
      have hstep : (step cfg host m op).nextFreeSlot ≤
          (step cfg host m op).deterministicSpace + (step cfg host m op).spaceSize +
            cfg.redZoneSpace - 1 := by
        rcases step_nextFreeSlot_cases cfg host m op with h1 | h1 <;> omega
      have := ih (step cfg host m op) hstep
      omega

theorem run_objects (cfg : Config) (host : HostOracle)
    (ops : List Op) (m : MemoryManager)
    (hm : ∀ mo ∈ m.objects, mo.address ≠ 0)
    (hops : ∀ op ∈ ops, fixedAddrNonzero op = true) :
    ∀ mo ∈ (run cfg host m ops).objects, mo.address ≠ 0 := by
  induction ops generalizing m with
  | nil => simpa using hm
  | cons op ops ih =>
      rw [run_cons]
      refine ih (step cfg host m op) ?_ ?_
      · intro mo hmo
        rcases step_objects cfg host m op (hops op (List.mem_cons_self op ops)) mo hmo with
          h1 | h1
        · exact hm mo h1
        · exact h1
      · exact fun o ho => hops o (List.mem_cons_of_mem op ho)

theorem run_segs_invariant (cfg : Config) (host : HostOracle)
    (ops : List Op) (m : MemoryManager)
    (h1 : List.Pairwise (· < ·) (createdSegs m.log))
    (h2 : ∀ s ∈ createdSegs m.log, s ≤ m.lastSegment) :
    List.Pairwise (· < ·) (createdSegs (run cfg host m ops).log) ∧
    ∀ s ∈ createdSegs (run cfg host m ops).log, s ≤ (run cfg host m ops).lastSegment := by
  induction ops generalizing m with
  | nil => exact ⟨h1, h2⟩
  | cons op ops ih =>
      rw [run_cons]
      rcases step_segs cfg host m op with ⟨hl, hc⟩ | ⟨hl, hc⟩
      · exact ih (step cfg host m op) (by rwa [hc]) (by rw [hc, hl]; exact h2)
      · refine ih (step cfg host m op) ?_ ?_
        · rw [hc]
          rw [List.pairwise_append]
          refine ⟨h1, List.pairwise_singleton _ _, ?_⟩
          intro a ha b hb
          rcases List.mem_singleton.mp hb with rfl
          exact Nat.lt_succ_of_le (h2 a ha)
        · rw [hc, hl]
          intro s hs
          rcases List.mem_append.mp hs with h3 | h3
          · exact Nat.le_succ_of_le (h2 s h3)
          · rcases List.mem_singleton.mp h3 with rfl
            exact Nat.le_refl _

/-- The registry of a freshly constructed manager is empty. -/
theorem init_objects (cfg : Config) (spaceSize ptrWidth mappedSpace : Nat) :
    (MemoryManager.init cfg spaceSize ptrWidth mappedSpace).objects = [] := by
  unfold MemoryManager.init
  split <;> rfl

/-- The log of a freshly constructed manager is empty. -/
theorem init_log (cfg : Config) (spaceSize ptrWidth mappedSpace : Nat) :
    (MemoryManager.init cfg spaceSize ptrWidth mappedSpace).log = [] := by
  unfold MemoryManager.init
  split <;> rfl

/-! ### Inversion of successful allocations -/

/-- `finishAllocate` with a null address fails without touching the state. -/
theorem finishAllocate_zero (m : MemoryManager) (size : SizeExpr)
    (l g : Bool) (site : Nat) :
    m.finishAllocate 0 size l g site = (none, m) := rfl

theorem finishAllocate_some_inv (m : MemoryManager) (address : Nat)
    (size : SizeExpr) (l g : Bool) (site : Nat)
    (mo : MemoryObject) (m' : MemoryManager)
    (h : m.finishAllocate address size l g site = (some mo, m')) :
    address ≠ 0 ∧ mo.address = address ∧ mo.size = size ∧
    mo.segment = m.lastSegment + 1 ∧ mo.isFixed = false ∧
    m'.nextFreeSlot = m.nextFreeSlot ∧
    m'.deterministicSpace = m.deterministicSpace ∧
    m'.spaceSize = m.spaceSize ∧
    m'.lastSegment = m.lastSegment + 1 ∧
    m'.objects = mo :: m.objects := by
  unfold MemoryManager.finishAllocate at h
  split_ifs at h with h0
  · exact absurd h (by simp)
  · rw [Prod.mk.injEq, Option.some.injEq] at h
    obtain ⟨hmo, hm⟩ := h
    subst hmo
    subst hm
    exact ⟨h0, rfl, rfl, rfl, rfl, rfl, rfl, rfl, rfl, rfl⟩

/-- Successful allocation in deterministic mode, inverted: the alignment
passed the power-of-two check, the returned address is the source's
alignment computation over the prior cursor, the address is non-null, the
carved region ends strictly below the arena end, and the new cursor sits
past the carved region plus the red zone. -/
theorem allocate_det_some (cfg : Config) (host : HostOracle) (m : MemoryManager)
    (size : SizeExpr) (l g : Bool) (site alignment : Nat)
    (mo : MemoryObject) (m' : MemoryManager)
    (hdet : cfg.deterministicAllocation = true)
    (h : m.allocate cfg host size l g site alignment = (some mo, m')) :
    isPowerOf2_64 alignment = true ∧
    mo.address = alignTo (m.nextFreeSlot + alignment - 1) alignment ∧
    mo.address ≠ 0 ∧
    mo.address + max ((size.asConstant).getD 0) 1 <
      m.deterministicSpace + m.spaceSize ∧
    m'.nextFreeSlot =
      mo.address + max ((size.asConstant).getD 0) 1 + cfg.redZoneSpace := by
  simp only [MemoryManager.allocate, hdet, if_true] at h
  split_ifs at h with h1 h2 h3 h4 <;>
    first
      | (simp [MemoryManager.finishAllocate] at h; done)
      | (obtain ⟨h0, ha, hs, hseg, hfx, hn, hd, hsp, hl, ho⟩ :=
           finishAllocate_some_inv _ _ _ _ _ _ _ _ h
         refine ⟨?_, ?_, ?_, ?_, ?_⟩ <;> simp_all)

/-! ### The native (host-delegating) path -/

theorem finishAllocate_mem_log (m : MemoryManager) (address : Nat)
    (size : SizeExpr) (l g : Bool) (site : Nat) (e : Event) (he : e ∈ m.log) :
    e ∈ ((m.finishAllocate address size l g site).2).log := by
  unfold MemoryManager.finishAllocate
  split
  · exact he
  · simp [he]

theorem finishAllocate_count_warnAllocFailed (m : MemoryManager) (address : Nat)
    (size : SizeExpr) (l g : Bool) (site : Nat) :
    ((((m.finishAllocate address size l g site).2).log).count Event.warnAllocFailed) =
      ((m.log).count Event.warnAllocFailed) := by
  unfold MemoryManager.finishAllocate
  split
  · rfl
  · simp

/-- On the standard native path (`alignment ≤ 8` or 32-bit pointers), the
byte count handed to `allocate_memory` is the concrete size when the size
is concrete — zero included — and 1 when symbolic. -/
theorem allocate_native_request (cfg : Config) (host : HostOracle)
    (m : MemoryManager) (size : SizeExpr) (l g : Bool) (site alignment : Nat)
    (hnd : cfg.deterministicAllocation = false)
    (hpow : isPowerOf2_64 alignment = true)
    (hz : cfg.nullOnZeroMalloc = false)
    (hpath : alignment ≤ 8 ∨ m.pointerBitWidth = 32) :
    Event.hostRequest ((size.asConstant).getD 1) (m.pointerBitWidth == 32) ∈
      ((m.allocate cfg host size l g site alignment).2).log := by
  cases size with
  | concrete n =>
      by_cases hL : 10 * 1024 * 1024 < n <;>
      by_cases hf : host.mem n (m.pointerBitWidth == 32) = 0 ∧ n ≠ 0 <;>
        simp [MemoryManager.allocate, hnd, hz, hpow, hpath, hL, hf,
          SizeExpr.asConstant, MemoryManager.finishAllocate] <;>
        split_ifs <;> simp
  | symbolic i =>
      by_cases hf : host.mem 1 (m.pointerBitWidth == 32) = 0 <;>
        simp [MemoryManager.allocate, hnd, hz, hpow, hpath, hf,
          SizeExpr.asConstant, MemoryManager.finishAllocate]

/-- On the aligned native path, the byte count handed to `posix_memalign`
is the concrete size when the size is concrete and 1 when symbolic. -/
theorem allocate_memalign_request (cfg : Config) (host : HostOracle)
    (m : MemoryManager) (size : SizeExpr) (l g : Bool) (site alignment : Nat)
    (hnd : cfg.deterministicAllocation = false)
    (hpow : isPowerOf2_64 alignment = true)
    (hz : cfg.nullOnZeroMalloc = false)
    (hpath : ¬ (alignment ≤ 8 ∨ m.pointerBitWidth = 32)) :
    Event.hostRequestAligned alignment ((size.asConstant).getD 1) ∈
      ((m.allocate cfg host size l g site alignment).2).log := by
  cases size with
  | concrete n =>
      by_cases hL : 10 * 1024 * 1024 < n <;>
      by_cases hr : host.memalignRes alignment n < 0 <;>
        simp [MemoryManager.allocate, hnd, hz, hpow, hpath, hL, hr,
          SizeExpr.asConstant, MemoryManager.finishAllocate] <;>
        split_ifs <;> simp
  | symbolic i =>
      by_cases hr : host.memalignRes alignment 1 < 0
      · simp [MemoryManager.allocate, hnd, hz, hpow, hpath, hr,
          SizeExpr.asConstant, MemoryManager.finishAllocate]
      · simp [MemoryManager.allocate, hnd, hz, hpow, hpath, hr,
          SizeExpr.asConstant, MemoryManager.finishAllocate]
        split_ifs <;> simp

/-- A concrete zero-byte request forwarded to the host that comes back null
makes `allocate` fail without the allocation-failure warning (the
`address == 0 && concreteSize != 0` guard skips the warning for size 0). -/
theorem allocate_native_zero_null (cfg : Config) (host : HostOracle)
    (m : MemoryManager) (l g : Bool) (site alignment : Nat)
    (hnd : cfg.deterministicAllocation = false)
    (hpow : isPowerOf2_64 alignment = true)
    (hz : cfg.nullOnZeroMalloc = false)
    (hpath : alignment ≤ 8 ∨ m.pointerBitWidth = 32)
    (hm : host.mem 0 (m.pointerBitWidth == 32) = 0) :
    (m.allocate cfg host (SizeExpr.concrete 0) l g site alignment).1 = none ∧
    (((m.allocate cfg host (SizeExpr.concrete 0) l g site alignment).2).log).count
        Event.warnAllocFailed =
      ((m.log).count Event.warnAllocFailed) := by
  simp [MemoryManager.allocate, hnd, hz, hpow, hpath, hm, SizeExpr.asConstant,
    MemoryManager.finishAllocate]

/-! ### The claims -/

/-- Claim C1: the overlap scan of `allocateFixed` is claimed to raise a
fatal error iff an existing concrete-size record intersects the requested
range `[address, address + size)`.  The code's scan never reads the
requested `size`: it tests `address + moSize > mo->address && address <
mo->address + moSize` with the *existing* record's size on both sides.
Evaluation at the failing input: with a concrete-size record spanning
`[1000, 1010)` tracked, `allocateFixed(900, 200)` — whose requested range
`[900, 1100)` intersects `[1000, 1010)` — is NOT reported fatal, while the
claim's own scenario (`[1000, 1100)` then `[1050, 1150)`) is. -/
theorem allocateFixed_overlap_check_ignores_requested_size :
    specRangesIntersect 900 200 1000 10 = true ∧
    (c1m1.allocateFixed 900 200 1).isFatal = false ∧
    (c1m1b.allocateFixed 1050 150 1).isFatal = true := by
  decide

/-- Claim C2, counterexample: the cursor can exceed `origin + arenaSize`.
Arena `[4096, 5096)`, red zone 10: allocating 999 bytes passes the fit
check (end 5095 < 5096) and then sets the cursor to 5105 > 5096. -/
theorem arena_cursor_exceeds_span_cex :
    (MemoryManager.init cfgDet 1000 64 4096).deterministicSpace +
        (MemoryManager.init cfgDet 1000 64 4096).spaceSize <
      c2m1.nextFreeSlot := by
  decide

/-- Claim C2 (amended): in deterministic mode the arena cursor is
non-decreasing across any sequence of requests, and it never exceeds
`origin + arenaSize + redZoneSpace - 1` (the code adds the red zone after
checking the fit, so the claimed bound `origin + arenaSize` can be
overshot by up to `redZoneSpace - 1` bytes). -/
theorem arena_cursor_monotone_and_bounded (cfg : Config) (host : HostOracle)
    (spaceSize ptrWidth mappedSpace : Nat) (ops ops' : List Op)
    (hdet : cfg.deterministicAllocation = true) (hsp : 1 ≤ spaceSize) :
    (run cfg host (MemoryManager.init cfg spaceSize ptrWidth mappedSpace)
        ops).nextFreeSlot ≤
      (run cfg host (MemoryManager.init cfg spaceSize ptrWidth mappedSpace)
        (ops ++ ops')).nextFreeSlot ∧
    (run cfg host (MemoryManager.init cfg spaceSize ptrWidth mappedSpace)
        ops).nextFreeSlot ≤
      mappedSpace + spaceSize + cfg.redZoneSpace - 1 := by
  have e1 : (MemoryManager.init cfg spaceSize ptrWidth mappedSpace).deterministicSpace =
      mappedSpace := by
    simp [MemoryManager.init, hdet]
  have e2 : (MemoryManager.init cfg spaceSize ptrWidth mappedSpace).spaceSize =
      spaceSize := by
    simp [MemoryManager.init, hdet]
  have e3 : (MemoryManager.init cfg spaceSize ptrWidth mappedSpace).nextFreeSlot =
      mappedSpace := by
    simp [MemoryManager.init, hdet]
  refine ⟨?_, ?_⟩
  · rw [run_append]
    exact run_nextFreeSlot_mono cfg host ops' _
  · have h0 : (MemoryManager.init cfg spaceSize ptrWidth mappedSpace).nextFreeSlot ≤
        (MemoryManager.init cfg spaceSize ptrWidth mappedSpace).deterministicSpace +
          (MemoryManager.init cfg spaceSize ptrWidth mappedSpace).spaceSize +
          cfg.redZoneSpace - 1 := by
      omega
    have hb := run_nextFreeSlot_bound cfg host ops _ h0
    omega

/-- Witness for the amended C2 at a concrete arena and request sequence. -/
theorem arena_cursor_monotone_and_bounded_witness :
    (run cfgDet host0 (MemoryManager.init cfgDet 1000 64 4096)
        [Op.alloc (SizeExpr.concrete 100) false false 0 8]).nextFreeSlot ≤
      (run cfgDet host0 (MemoryManager.init cfgDet 1000 64 4096)
        ([Op.alloc (SizeExpr.concrete 100) false false 0 8] ++
          [Op.alloc (SizeExpr.concrete 50) false false 0 8])).nextFreeSlot ∧
    (run cfgDet host0 (MemoryManager.init cfgDet 1000 64 4096)
        [Op.alloc (SizeExpr.concrete 100) false false 0 8]).nextFreeSlot ≤
      4096 + 1000 + cfgDet.redZoneSpace - 1 :=
  arena_cursor_monotone_and_bounded cfgDet host0 1000 64 4096
    [Op.alloc (SizeExpr.concrete 100) false false 0 8]
    [Op.alloc (SizeExpr.concrete 50) false false 0 8] rfl (by decide)

/-- Claim C3, counterexample: `allocateFixed` performs no null check on the
caller-supplied address, so `allocateFixed(0, 16)` puts a record with
address 0 into the registry. -/
theorem registry_zero_address_cex :
    ¬ (∀ mo ∈ c3m1.objects, mo.address ≠ 0) := by
  decide

/-- Claim C3 (amended): every record the registry holds has a non-zero
address, provided every `allocateFixed` request supplies a non-zero
address — `allocate` null-checks the backing address before insertion, but
the fixed path trusts its caller. -/
theorem registry_nonzero_addresses (cfg : Config) (host : HostOracle)
    (spaceSize ptrWidth mappedSpace : Nat) (ops : List Op)
    (hops : ∀ op ∈ ops, fixedAddrNonzero op = true) :
    ∀ mo ∈ (run cfg host (MemoryManager.init cfg spaceSize ptrWidth mappedSpace)
        ops).objects, mo.address ≠ 0 := by
  refine run_objects cfg host ops _ ?_ hops
  rw [init_objects]
  intro mo hmo
  simp at hmo

/-- Witness for the amended C3: a record of the registry reached by a mixed
request sequence has a non-zero address. -/
theorem registry_nonzero_addresses_witness : c3w.address ≠ 0 :=
  registry_nonzero_addresses cfgNative host0 1000 64 0
    [Op.allocFixed 4096 16 0,
     Op.alloc (SizeExpr.concrete 10) false false 0 8,
     Op.free moOutside] (by decide) c3w (by decide)

/-- Claim C4: across the manager's lifetime — any sequence of allocate,
allocateFixed and free requests from construction — the identities issued
to successful allocations are strictly increasing in issuance order, hence
pairwise distinct, and an identity is never reused after a free (freeing
never touches `lastSegment` and past issuances stay in the log). -/
theorem identities_strictly_increasing (cfg : Config) (host : HostOracle)
    (spaceSize ptrWidth mappedSpace : Nat) (ops : List Op) :
    List.Pairwise (· < ·)
      (createdSegs
        (run cfg host (MemoryManager.init cfg spaceSize ptrWidth mappedSpace)
          ops).log) := by
  refine (run_segs_invariant cfg host ops _ ?_ ?_).1
  · rw [init_log]
    simp
  · rw [init_log]
    intro s hs
    simp at hs

/-- Claim C5: in deterministic mode, when the carved region's end would
exceed the reserved span, `allocate` returns failure, emits (only) the
advisory exhaustion message — the embedding has no fatal outcome for
`allocate` at all — and leaves the cursor and the registry exactly as
they were. -/
theorem det_exhaustion_fails_without_fatal (cfg : Config) (host : HostOracle)
    (m : MemoryManager) (size : SizeExpr) (l g : Bool) (site alignment : Nat)
    (hdet : cfg.deterministicAllocation = true)
    (hpow : isPowerOf2_64 alignment = true)
    (hzf : ¬ (cfg.nullOnZeroMalloc = true ∧ size.asConstant = some 0))
    (hex : m.deterministicSpace + m.spaceSize <
      alignTo (m.nextFreeSlot + alignment - 1) alignment +
        max ((size.asConstant).getD 0) 1) :
    (m.allocate cfg host size l g site alignment).1 = none ∧
    ((m.allocate cfg host size l g site alignment).2).nextFreeSlot =
      m.nextFreeSlot ∧
    ((m.allocate cfg host size l g site alignment).2).objects = m.objects ∧
    Event.warnNotEnoughSpace ∈
      ((m.allocate cfg host size l g site alignment).2).log := by
  have hcond : (cfg.nullOnZeroMalloc && (size.asConstant).isSome &&
      ((size.asConstant).getD 0 == 0)) = false := by
    cases size with
    | concrete n =>
        rcases Bool.eq_false_or_eq_true cfg.nullOnZeroMalloc with hb | hb
        · have hn : n ≠ 0 := fun h0 => hzf ⟨hb, by simp [SizeExpr.asConstant, h0]⟩
          simp [SizeExpr.asConstant, hb, hn]
        · simp [hb]
    | symbolic i => simp [SizeExpr.asConstant]
  have hnotfit : ¬ (alignTo (m.nextFreeSlot + alignment - 1) alignment +
      max ((size.asConstant).getD 0) 1 < m.deterministicSpace + m.spaceSize) := by
    omega
  by_cases hL : 10 * 1024 * 1024 < (size.asConstant).getD 0 <;>
    simp [MemoryManager.allocate, hdet, hcond, hpow, hL, hnotfit,
      MemoryManager.finishAllocate]

/-- Witness for C5: a 2000-byte request against a 1000-byte arena fails
with the cursor unchanged. -/
theorem det_exhaustion_fails_without_fatal_witness :
    ((MemoryManager.init cfgDet 1000 64 4096).allocate cfgDet host0
        (SizeExpr.concrete 2000) false false 0 1).1 = none ∧
    (((MemoryManager.init cfgDet 1000 64 4096).allocate cfgDet host0
        (SizeExpr.concrete 2000) false false 0 1).2).nextFreeSlot =
      (MemoryManager.init cfgDet 1000 64 4096).nextFreeSlot ∧
    (((MemoryManager.init cfgDet 1000 64 4096).allocate cfgDet host0
        (SizeExpr.concrete 2000) false false 0 1).2).objects =
      (MemoryManager.init cfgDet 1000 64 4096).objects ∧
    Event.warnNotEnoughSpace ∈
      (((MemoryManager.init cfgDet 1000 64 4096).allocate cfgDet host0
        (SizeExpr.concrete 2000) false false 0 1).2).log :=
  det_exhaustion_fails_without_fatal cfgDet host0
    (MemoryManager.init cfgDet 1000 64 4096) (SizeExpr.concrete 2000)
    false false 0 1 rfl (by decide) (by decide) (by decide)

/-- Claim C6: in deterministic mode the gap between a carved region's end
(`address + max(size, 1)`) and the next carved region's start is at least
the red-zone size: the cursor is parked at end + redZoneSpace and the next
address is computed at or above the cursor. -/
theorem redzone_separation (cfg : Config) (host : HostOracle) (m : MemoryManager)
    (s1 : Nat) (l1 g1 : Bool) (t1 a1 : Nat)
    (size2 : SizeExpr) (l2 g2 : Bool) (t2 a2 : Nat)
    (mo1 mo2 : MemoryObject) (m1 m2 : MemoryManager)
    (hdet : cfg.deterministicAllocation = true)
    (h1 : m.allocate cfg host (SizeExpr.concrete s1) l1 g1 t1 a1 = (some mo1, m1))
    (h2 : m1.allocate cfg host size2 l2 g2 t2 a2 = (some mo2, m2)) :
    mo1.address + max s1 1 + cfg.redZoneSpace ≤ mo2.address := by
  obtain ⟨hp1, ha1, hz1, hf1, hn1⟩ :=
    allocate_det_some cfg host m (SizeExpr.concrete s1) l1 g1 t1 a1 mo1 m1 hdet h1
  obtain ⟨hp2, ha2, hz2, hf2, hn2⟩ :=
    allocate_det_some cfg host m1 size2 l2 g2 t2 a2 mo2 m2 hdet h2
  have hpos := isPowerOf2_64_pos hp2
  have hge := alignTo_ge (m1.nextFreeSlot + a2 - 1) a2 hpos
  have hsz : ((SizeExpr.concrete s1).asConstant).getD 0 = s1 := rfl
  rw [hsz] at hn1
  omega

/-- Witness for C6, the spec's scenario: 1 MiB arena, red zone 16;
allocate 100 bytes then 50 bytes — the second address is at least the
first address + 100 + 16. -/
theorem redzone_separation_witness :
    c6mo1.address + max 100 1 + cfgDet16.redZoneSpace ≤ c6mo2.address :=
  redzone_separation cfgDet16 host0 c6m0 100 false false 0 8
    (SizeExpr.concrete 50) false false 0 8 c6mo1 c6mo2 c6r1.2 c6r2.2
    rfl rfl rfl

/-- Claim C7, counterexample: with the cursor at 4096 (a multiple of 8) and
alignment 8, the code returns 4104 — `alignTo(cursor + alignment - 1,
alignment)` — not the smallest aligned address at or above the cursor,
which is 4096 itself. -/
theorem det_carve_address_cex :
    (c7r.1).map MemoryObject.address = some 4104 ∧
    specSmallestAlignedGE c7m0.nextFreeSlot 8 = 4096 ∧
    (c7r.1).map MemoryObject.address ≠
      some (specSmallestAlignedGE c7m0.nextFreeSlot 8) := by
  decide

/-- Claim C7 (amended): a successful deterministic allocate with
power-of-two alignment `a` and prior cursor `c` returns
`alignTo(c + a - 1, a)` — an address that is a multiple of `a` and at
least `c`, but one alignment step above the smallest aligned address ≥ `c`
whenever `c` is already aligned and `a ≥ 2` — and the served region spans
`max(size, 1)` bytes from it (zero-size and symbolic-size requests occupy
1 byte), the cursor moving to its end plus the red zone. -/
theorem det_carve_address_amended (cfg : Config) (host : HostOracle)
    (m : MemoryManager) (size : SizeExpr) (l g : Bool) (site alignment : Nat)
    (mo : MemoryObject) (m' : MemoryManager)
    (hdet : cfg.deterministicAllocation = true)
    (h : m.allocate cfg host size l g site alignment = (some mo, m')) :
    mo.address = alignTo (m.nextFreeSlot + alignment - 1) alignment ∧
    alignment ∣ mo.address ∧
    m.nextFreeSlot ≤ mo.address ∧
    m'.nextFreeSlot =
      mo.address + max ((size.asConstant).getD 0) 1 + cfg.redZoneSpace := by
  obtain ⟨hp, ha, hz, hf, hn⟩ :=
    allocate_det_some cfg host m size l g site alignment mo m' hdet h
  have hpos := isPowerOf2_64_pos hp
  have hge := alignTo_ge (m.nextFreeSlot + alignment - 1) alignment hpos
  refine ⟨ha, ?_, ?_, hn⟩
  · rw [ha]
    exact alignTo_dvd _ _
  · omega

/-- Witness for the amended C7 at the concrete allocation of
`det_carve_address_cex`. -/
theorem det_carve_address_amended_witness :
    c7mo.address = alignTo (c7m0.nextFreeSlot + 8 - 1) 8 ∧
    8 ∣ c7mo.address ∧
    c7m0.nextFreeSlot ≤ c7mo.address ∧
    (c7r.2).nextFreeSlot =
      c7mo.address + max (((SizeExpr.concrete 50).asConstant).getD 0) 1 +
        cfgDet.redZoneSpace :=
  det_carve_address_amended cfgDet host0 c7m0 (SizeExpr.concrete 50)
    false false 0 8 c7mo c7r.2 rfl rfl

/-- Claim C8: with `return-null-on-zero-malloc` enabled, a concrete
zero-size allocate returns failure immediately and the manager state —
registry, identity counter, cursor, log — is exactly unchanged, so the
next successful allocation receives the identity this call would have
taken. -/
theorem zero_size_fail_policy (cfg : Config) (host : HostOracle)
    (m : MemoryManager) (l g : Bool) (site alignment : Nat)
    (hz : cfg.nullOnZeroMalloc = true) :
    m.allocate cfg host (SizeExpr.concrete 0) l g site alignment = (none, m) := by
  simp [MemoryManager.allocate, hz, SizeExpr.asConstant]

/-- Witness for C8 on a fresh manager. -/
theorem zero_size_fail_policy_witness :
    (MemoryManager.init cfgNativeZeroFail 1000 64 0).allocate cfgNativeZeroFail
        host0 (SizeExpr.concrete 0) false false 0 8 =
      (none, MemoryManager.init cfgNativeZeroFail 1000 64 0) :=
  zero_size_fail_policy cfgNativeZeroFail host0
    (MemoryManager.init cfgNativeZeroFail 1000 64 0) false false 0 8 rfl

/-- Claim C9: `markFreed` on a record not tracked in the registry —
including an already-freed one — is a complete no-op: the whole manager
state (registry, identity counter, cursor, and the event log, so no
storage release and no diagnostic) is unchanged. -/
theorem markFreed_untracked_noop (cfg : Config) (m : MemoryManager)
    (mo : MemoryObject) (h : mo ∉ m.objects) :
    m.markFreed cfg mo = m := by
  unfold MemoryManager.markFreed
  simp [h]

/-- Witness for C9: freeing a never-tracked record on a fresh manager. -/
theorem markFreed_untracked_noop_witness :
    (MemoryManager.init cfgNative 1000 64 0).markFreed cfgNative moOutside =
      MemoryManager.init cfgNative 1000 64 0 :=
  markFreed_untracked_noop cfgNative (MemoryManager.init cfgNative 1000 64 0)
    moOutside (by decide)

/-- Claim C10: in native mode the byte count requested from the host is
exactly the concrete size when the size is concrete (a concrete zero with
the zero-fail policy disabled is forwarded as a 0-byte request, not
rounded up) and 1 exactly when the size is symbolic — on both the
`allocate_memory` and the `posix_memalign` paths — and a null host answer
to a concrete zero-byte request makes `allocate` fail without emitting the
allocation-failure warning. -/
theorem native_host_request_size (cfg : Config) (host : HostOracle)
    (m : MemoryManager) (size : SizeExpr) (l g : Bool) (site alignment : Nat)
    (hnd : cfg.deterministicAllocation = false)
    (hpow : isPowerOf2_64 alignment = true)
    (hz : cfg.nullOnZeroMalloc = false) :
    ((alignment ≤ 8 ∨ m.pointerBitWidth = 32) →
       Event.hostRequest
         (match size with
          | SizeExpr.concrete n => n
          | SizeExpr.symbolic _ => 1)
         (m.pointerBitWidth == 32) ∈
         ((m.allocate cfg host size l g site alignment).2).log) ∧
    (¬ (alignment ≤ 8 ∨ m.pointerBitWidth = 32) →
       Event.hostRequestAligned alignment
         (match size with
          | SizeExpr.concrete n => n
          | SizeExpr.symbolic _ => 1) ∈
         ((m.allocate cfg host size l g site alignment).2).log) ∧
    (size = SizeExpr.concrete 0 →
     (alignment ≤ 8 ∨ m.pointerBitWidth = 32) →
     host.mem 0 (m.pointerBitWidth == 32) = 0 →
       (m.allocate cfg host size l g site alignment).1 = none ∧
       (((m.allocate cfg host size l g site alignment).2).log).count
           Event.warnAllocFailed =
         ((m.log).count Event.warnAllocFailed)) := by
  refine ⟨fun hpath => ?_, fun hpath => ?_, fun hsz hpath hm => ?_⟩
  · have h := allocate_native_request cfg host m size l g site alignment
      hnd hpow hz hpath
    cases size <;> exact h
  · have h := allocate_memalign_request cfg host m size l g site alignment
      hnd hpow hz hpath
    cases size <;> exact h
  · subst hsz
    exact allocate_native_zero_null cfg host m l g site alignment
      hnd hpow hz hpath hm

/-- Witness for C10: a fresh 64-bit native manager, alignment 8, size 0,
against a host whose `malloc(0)` returns null — the host request is for
0 bytes, the call fails, and no allocation-failure warning is counted. -/
theorem native_host_request_size_witness :
    Event.hostRequest 0
        ((MemoryManager.init cfgNative 1000 64 0).pointerBitWidth == 32) ∈
      (((MemoryManager.init cfgNative 1000 64 0).allocate cfgNative host0
        (SizeExpr.concrete 0) false false 0 8).2).log ∧
    ((MemoryManager.init cfgNative 1000 64 0).allocate cfgNative host0
        (SizeExpr.concrete 0) false false 0 8).1 = none ∧
    ((((MemoryManager.init cfgNative 1000 64 0).allocate cfgNative host0
        (SizeExpr.concrete 0) false false 0 8).2).log).count
        Event.warnAllocFailed =
      (((MemoryManager.init cfgNative 1000 64 0).log).count
        Event.warnAllocFailed) := by
  have h := native_host_request_size cfgNative host0
    (MemoryManager.init cfgNative 1000 64 0) (SizeExpr.concrete 0)
    false false 0 8 rfl (by decide) rfl
  exact ⟨h.1 (by decide), (h.2.2 rfl (by decide) rfl).1,
    (h.2.2 rfl (by decide) rfl).2⟩

end KleeMemory
